import Mathlib

/-!
Shallow embedding of the calendar availability & booking engine of
`app/calendar/service.py` and `app/calendar/repository.py`.

All operations in the source are scoped to one provider (`user_id` prefixes
the partition key, so distinct providers never share items); the embedding
therefore models the state of the calendar of a single provider.  DynamoDB items
become Lean structures, the table becomes an association list from keys to
items (a `put_item` replaces the item at its key, as DynamoDB does), and the
wall clock (`datetime.now`) becomes an explicit `now : Nat` / `Int` argument.
Python exceptions become `Except` results paired with the store as it stands
when the exception propagates (a DynamoDB conditional put that fails its
condition writes nothing).
-/

set_option autoImplicit false

namespace Cal

/-- Python `s.replace(":", "")` on a list of characters. -/
def stripColonsL (l : List Char) : List Char :=
  l.filter (fun c => c ≠ ':')

/-- Python `s.replace(":", "")` — used by the booking operations to normalize a
time argument to the `HHMM` key form (`service.py` lines 141, 168-169, 204). -/
def stripColons (s : String) : String :=
  ⟨stripColonsL s.data⟩

/-- Python `str.strip()`: drop leading and trailing whitespace (the Python version
strips all Unicode whitespace; the inputs of interest are ASCII). -/
def pyStrip (l : List Char) : List Char :=
  ((l.dropWhile Char.isWhitespace).reverse.dropWhile Char.isWhitespace).reverse

/-- Function `_parse_slot` from `service.py`: strip colons and whitespace; if exactly
4 characters remain, re-insert the colon (`"0930" -> "09:30"`), otherwise
return the stripped string unchanged. -/
def parseSlot (s : String) : String :=
  match pyStrip (stripColonsL s.data) with
  | [a, b, c, d] => ⟨[a, b, ':', c, d]⟩
  | t => ⟨t⟩

/-- A booking item as written by `CalendarRepository.put_booking`
(minus the PK/SK key attributes, which the key of the store entry carries).
`appointmentDetails` is a free-form payload; an association list of strings
stands in for the Python dict.  Timestamps are abstract instants. -/
structure Booking where
  clientMobile : String
  status : String
  appointmentDetails : List (String × String)
  createdAt : Nat
  updatedAt : Nat
deriving DecidableEq, Repr

/-- Booking key: (date string, HHMM time string), the `BOOKING#date#Thhmm`
sort key without its constant framing. -/
abbrev BKey := String × String

/-- Booking rows of one provider: an association list keyed by `BKey`. -/
abbrev BookStore := List (BKey × Booking)

/-- DynamoDB `get_item` at a booking key. -/
def lookupB : BookStore → BKey → Option Booking
  | [], _ => none
  | (k', b) :: rest, k => if k' = k then some b else lookupB rest k

/-- DynamoDB `delete_item` at a booking key. -/
def removeB : BookStore → BKey → BookStore
  | [], _ => []
  | (k', b) :: rest, k =>
      if k' = k then removeB rest k else (k', b) :: removeB rest k

/-- DynamoDB `put_item`: replace whatever item sits at the key. -/
def insertB (st : BookStore) (k : BKey) (b : Booking) : BookStore :=
  (k, b) :: removeB st k

instance {ε α : Type} [DecidableEq ε] [DecidableEq α] : DecidableEq (Except ε α) :=
  fun a b =>
    match a, b with
    | Except.error e, Except.error f => decidable_of_iff (e = f) (by simp)
    | Except.error _, Except.ok _ => Decidable.isFalse (by simp)
    | Except.ok _, Except.error _ => Decidable.isFalse (by simp)
    | Except.ok u, Except.ok v => decidable_of_iff (u = v) (by simp)

/-- Domain errors raised by `CalendarService` booking operations:
`ValueError` for a malformed time, `ConflictError` for an occupied slot,
and `ValueError("Booking not found or already cancelled")` on reschedule. -/
inductive CalErr where
  | validation
  | conflict
  | notFound
deriving DecidableEq, Repr

/-- Model of `CalendarRepository.put_booking`: build the item (with
`createdAt = created_at or now`, `updatedAt = now`) and `put_item` it.
With `cond = true` the put carries `ConditionExpression
attribute_not_exists(PK)`: it fails — writing nothing — exactly when an item
already exists at the key (`repository.py` lines 161-189). -/
def put_booking (st : BookStore) (date time_hhmm clientMobile status : String)
    (details : List (String × String)) (createdAt : Option Nat) (cond : Bool)
    (now : Nat) : Except Unit BookStore :=
  let item : Booking :=
    { clientMobile := clientMobile, status := status,
      appointmentDetails := details, createdAt := createdAt.getD now,
      updatedAt := now }
  if cond ∧ (lookupB st (date, time_hhmm)).isSome then
    Except.error ()
  else
    Except.ok (insertB st (date, time_hhmm) item)

/-- Model of `CalendarService.create_booking` (`service.py` lines 132-158): strip
colons from the time; raise `ValueError` unless exactly 4 characters remain;
conditional-insert the booking; map a conditional-check failure to
`ConflictError`; finally read the booking back.  The returned store is the
table as the call leaves it (errors happen before any write or on a
conditional put that wrote nothing, so on error the store is unchanged). -/
def create_booking (st : BookStore) (date time clientMobile : String)
    (details : List (String × String)) (status : String) (now : Nat) :
    Except CalErr (Option Booking) × BookStore :=
  let t := stripColons time
  if t.length ≠ 4 then
    (Except.error CalErr.validation, st)
  else
    match put_booking st date t clientMobile status details none true now with
    | Except.error _ => (Except.error CalErr.conflict, st)
    | Except.ok st' => (Except.ok (lookupB st' (date, t)), st')

/-- Model of `CalendarService.reschedule_booking` (`service.py` lines 160-201):
normalize both times; fail with `ValueError` when the old key holds no
booking or a CANCELLED one; delete the old key; conditional-insert at the
new key carrying the original `createdAt`, client, details and status; if
the insert hits an existing item, unconditionally re-insert the original
booking at the old key (compensation) and raise `ConflictError`.
The source takes fresh `_now()` timestamps inside each `put_booking`; the
model passes one `now` for the whole call, which only coarsens `updatedAt`. -/
def reschedule_booking (st : BookStore) (old_date old_time new_date new_time : String)
    (now : Nat) : Except CalErr (Option Booking) × BookStore :=
  let ot := stripColons old_time
  let nt := stripColons new_time
  match lookupB st (old_date, ot) with
  | none => (Except.error CalErr.notFound, st)
  | some old_item =>
    if old_item.status = "CANCELLED" then
      (Except.error CalErr.notFound, st)
    else
      let st1 := removeB st (old_date, ot)
      match put_booking st1 new_date nt old_item.clientMobile old_item.status
          old_item.appointmentDetails (some old_item.createdAt) true now with
      | Except.error _ =>
        match put_booking st1 old_date ot old_item.clientMobile old_item.status
            old_item.appointmentDetails (some old_item.createdAt) false now with
        | Except.error _ => (Except.error CalErr.conflict, st1)
        | Except.ok st2 => (Except.error CalErr.conflict, st2)
      | Except.ok st2 => (Except.ok (lookupB st2 (new_date, nt)), st2)

/-- Model of `CalendarService.cancel_booking` (`service.py` lines 203-212): normalize
the time; return `none` untouched when no item exists; otherwise set
`status = "CANCELLED"`, refresh `updatedAt`, and write the item back
unconditionally. -/
def cancel_booking (st : BookStore) (date time : String) (now : Nat) :
    Option Booking × BookStore :=
  let t := stripColons time
  match lookupB st (date, t) with
  | none => (none, st)
  | some item =>
    let item' := { item with status := "CANCELLED", updatedAt := now }
    (some item', insertB st (date, t) item')

/-- The `SETTINGS#GLOBAL` item (`repository.py` lines 29-50). -/
structure Settings where
  horizonDays : Nat
  minNoticeHours : Nat
  hardCutoffDate : Option String
  createdAt : Nat
  updatedAt : Nat
deriving DecidableEq, Repr

/-- Model of `CalendarRepository.update_settings` (`repository.py` lines 52-71), to
which `CalendarService.update_settings` delegates unchanged: return `none`
when no settings row exists; otherwise overwrite exactly the fields whose
argument `is not None` and refresh `updatedAt`. -/
def update_settings (s : Option Settings) (horizon_days min_notice_hours : Option Nat)
    (hard_cutoff_date : Option String) (now : Nat) : Option Settings :=
  match s with
  | none => none
  | some ex =>
    some { horizonDays := horizon_days.getD ex.horizonDays,
           minNoticeHours := min_notice_hours.getD ex.minNoticeHours,
           hardCutoffDate :=
             match hard_cutoff_date with
             | some v => some v
             | none => ex.hardCutoffDate,
           createdAt := ex.createdAt,
           updatedAt := now }

/-! ### Calendar dates and the availability engine -/

/-- A civil calendar date.  The source passes ISO `YYYY-MM-DD` strings and
parses them with `datetime.fromisoformat`; the embedding carries the parsed
triple and renders it back to the ISO string where the source compares or
stores strings. -/
structure Date where
  year : Nat
  month : Nat
  day : Nat
deriving DecidableEq, Repr

def isLeap (y : Nat) : Bool :=
  y % 4 = 0 ∧ (y % 100 ≠ 0 ∨ y % 400 = 0)

def daysInMonth (y m : Nat) : Nat :=
  if m = 2 then (if isLeap y then 29 else 28)
  else if m = 4 ∨ m = 6 ∨ m = 9 ∨ m = 11 then 30
  else 31

/-- Python `d + timedelta(days=1)` on the civil calendar. -/
def nextDay (d : Date) : Date :=
  if d.day < daysInMonth d.year d.month then ⟨d.year, d.month, d.day + 1⟩
  else if d.month < 12 then ⟨d.year, d.month + 1, 1⟩
  else ⟨d.year + 1, 1, 1⟩

/-- Rank of a date in the proleptic Gregorian calendar (days-from-civil
formula, collapsed to `Nat` for years ≥ 1); consecutive valid dates map to
consecutive numbers.  Used to count loop iterations and to place a
date+time pair on the absolute minute line. -/
def dayNumber (d : Date) : Nat :=
  let y := if d.month ≤ 2 then d.year - 1 else d.year
  let mp := (d.month + 9) % 12
  let doy := (153 * mp + 2) / 5 + d.day - 1
  y * 365 + y / 4 - y / 100 + y / 400 + doy

/-- Zero-pad to 2 digits (`strftime %m`/`%d`). -/
def pad2 (n : Nat) : String :=
  if n < 10 then "0" ++ Nat.repr n else Nat.repr n

/-- Zero-pad to 4 digits (`strftime %Y`). -/
def pad4 (n : Nat) : String :=
  if n < 10 then "000" ++ Nat.repr n
  else if n < 100 then "00" ++ Nat.repr n
  else if n < 1000 then "0" ++ Nat.repr n
  else Nat.repr n

/-- Python `d.strftime("%Y-%m-%d")`. -/
def isoDate (d : Date) : String :=
  pad4 d.year ++ "-" ++ pad2 d.month ++ "-" ++ pad2 d.day

/-- Chronological order on dates (what the Python `datetime` comparison gives
for the valid dates the source iterates over). -/
def dateLe (a b : Date) : Bool :=
  if a.year ≠ b.year then a.year < b.year
  else if a.month ≠ b.month then a.month < b.month
  else a.day ≤ b.day

def iterDatesAux (s : Date) (e : Date) : Nat → List Date
  | 0 => []
  | fuel + 1 => if dateLe s e then s :: iterDatesAux (nextDay s) e fuel else []

/-- Function `_iterate_dates(start, end)`: every date from `start` to `end`
inclusive (`service.py` lines 31-36).  The loop count is bounded by the
day-rank difference, which is exact for valid dates. -/
def iterateDates (s e : Date) : List Date :=
  iterDatesAux s e (dayNumber e + 1 - dayNumber s)

/-- Code-point lexicographic `<=` on strings, the order DynamoDB applies to
sort keys and Python applies to `str` comparison (identical on ASCII). -/
def listLexLe : List Char → List Char → Bool
  | [], _ => true
  | _ :: _, [] => false
  | a :: as, b :: bs => if a < b then true else if b < a then false else listLexLe as bs

def strLe (a b : String) : Bool := listLexLe a.data b.data

/-- Strict form of `strLe`. -/
def strLt (a b : String) : Bool := !(strLe b a)

/-- A `RULE#DOM#dd` item (`repository.py` lines 81-94). -/
structure Rule where
  dayOfMonth : Nat
  availableSlots : List String
deriving DecidableEq, Repr

/-- A `DATE#yyyy-mm-dd` override item (`repository.py` lines 116-136). -/
structure DateOverride where
  date : String
  type : String
  overrideSlots : List String
deriving DecidableEq, Repr

/-- A booking row as `get_availability` consumes it: the date and `HHMM`
time recovered from the `BOOKING#date#Thhmm` sort key, plus the status. -/
structure BookingRow where
  date : String
  timeHHMM : String
  status : String
deriving DecidableEq, Repr

/-- Building a Python dict from a list of keyed items: the LAST item with
the key wins, as in `{o["date"]: o for o in ...}`. -/
def lookupLast {α κ : Type} [DecidableEq κ] (key : α → κ) (l : List α) (k : κ) : Option α :=
  match l with
  | [] => none
  | x :: rest =>
    match lookupLast key rest k with
    | some r => some r
    | none => if key x = k then some x else none

/-- Model of `list_date_overrides(user, start, end)` (`repository.py` lines 138-146):
sort keys `DATE#date` between `DATE#start` and `DATE#end`; with the common
prefix fixed this is a lexicographic range filter on the date strings. -/
def overridesInRange (ovs : List DateOverride) (startD endD : String) :
    List DateOverride :=
  ovs.filter (fun o => strLe startD o.date ∧ strLe o.date endD)

/-- Model of `list_bookings_for_range` (`repository.py` lines 207-215): sort keys
between `BOOKING#start#T0000` and `BOOKING#end#T2359`, compared
lexicographically on the full key. -/
def bookingSK (r : BookingRow) : String :=
  "BOOKING#" ++ r.date ++ "#T" ++ r.timeHHMM

def bookingsInRange (rows : List BookingRow) (startD endD : String) :
    List BookingRow :=
  rows.filter (fun r =>
    strLe ("BOOKING#" ++ startD ++ "#T0000") (bookingSK r) ∧
    strLe (bookingSK r) ("BOOKING#" ++ endD ++ "#T2359"))

/-- The `booked` times the service derives for one date (`service.py` lines
80-87): for each PENDING/CONFIRMED row of that date, the `HHMM` key time
with the colon re-inserted when it has exactly 4 characters. -/
def bookedTimes (rows : List BookingRow) (d : String) : List String :=
  (rows.filter (fun r => (r.status = "PENDING" ∨ r.status = "CONFIRMED") ∧ r.date = d)).map
    (fun r =>
      match r.timeHHMM.data with
      | [a, b, c, e] => (⟨[a, b, ':', c, e]⟩ : String)
      | t => ⟨t⟩)

def isDigit (c : Char) : Bool := '0' ≤ c ∧ c ≤ '9'

/-- Notion, per the spec, of a well-formed time after normalization: exactly
four decimal digits (`HHMM`).  The source only checks the length, so this
definition exists to compare the wording of the spec against the code. -/
def isFourDigitTime (s : String) : Bool :=
  s.length = 4 && s.data.all isDigit

/-- Minute-of-day of a slot string, as `datetime.fromisoformat` reads the
`T{slot}:00Z` tail the service builds: accepts exactly `HH:MM` with
`HH ≤ 23`, `MM ≤ 59`, and fails (raising `ValueError` in Python) otherwise. -/
def slotMinutes (s : String) : Option Nat :=
  match s.data with
  | [h1, h2, ':', m1, m2] =>
    if isDigit h1 ∧ isDigit h2 ∧ isDigit m1 ∧ isDigit m2 then
      let hh := (h1.toNat - '0'.toNat) * 10 + (h2.toNat - '0'.toNat)
      let mm := (m1.toNat - '0'.toNat) * 10 + (m2.toNat - '0'.toNat)
      if hh ≤ 23 ∧ mm ≤ 59 then some (hh * 60 + mm) else none
    else none
  | _ => none

/-- Absolute minute of `_date_from_iso(d + "T" + slot + ":00Z")`. -/
def slotInstant (d : Date) (s : String) : Option Nat :=
  (slotMinutes s).map (fun m => dayNumber d * 1440 + m)

/-- The min-notice filter (`service.py` lines 120-125): keep the slots whose
instant is `>= now + minNotice` hours; a slot string the datetime parser
rejects aborts the whole availability call (Python raises). -/
def noticeFilter (d : Date) (cutoff : Nat) : List String → Option (List String)
  | [] => some []
  | s :: rest =>
    match slotInstant d s with
    | none => none
    | some i =>
      match noticeFilter d cutoff rest with
      | none => none
      | some tail => some (if cutoff ≤ i then s :: tail else tail)

/-- Insertion sort by code-point order — `sorted(available)` on strings. -/
def insertSorted (x : String) : List String → List String
  | [] => [x]
  | y :: ys => if strLe x y then x :: y :: ys else y :: insertSorted x ys

def sortStrings : List String → List String
  | [] => []
  | x :: xs => insertSorted x (sortStrings xs)

/-- One `{date, slots}` element of the availability result. -/
structure DayAvail where
  date : String
  slots : List String
deriving DecidableEq, Repr

/-- The base slot set of one date (`service.py` lines 99-111): the override
replaces the rule-derived set entirely; a BLOCKED override (`none` here)
removes the date; with no override, the recurring rule for the
day-of-month applies, or the empty set.  Every slot goes through
`_parse_slot`. -/
def baseSlotsFor (rules : List Rule) (ovs : List DateOverride) (dt : Date) :
    Option (List String) :=
  match lookupLast DateOverride.date ovs (isoDate dt) with
  | some o =>
    if o.type = "BLOCKED" then none
    else some (o.overrideSlots.map parseSlot)
  | none =>
    some (((lookupLast Rule.dayOfMonth rules dt.day).map
      Rule.availableSlots).getD [] |>.map parseSlot)

/-- Emit step of the loop (`service.py` lines 127-128): a date with an
empty open-slot list produces no entry; otherwise the slots are sorted. -/
def emitDay (d : String) (av : List String) : Option DayAvail :=
  if av.isEmpty then none else some { date := d, slots := sortStrings av }

/-- The per-date body of the `get_availability` loop (`service.py` lines
95-128).  Returns `none` when the iteration raises (malformed slot under the
min-notice filter), `some none` when the date is skipped or has no open
slots, and `some (some entry)` when an entry is emitted. -/
def availForDate (minNotice : Nat) (hardCutoff : Option String)
    (rules : List Rule) (ovs : List DateOverride) (rows : List BookingRow)
    (now : Nat) (dt : Date) : Option (Option DayAvail) :=
  if (match hardCutoff with | some hc => strLt hc (isoDate dt) | none => false) then
    some none
  else
    match baseSlotsFor rules ovs dt with
    | none => some none
    | some base =>
      let taken := bookedTimes rows (isoDate dt)
      let available := base.filter (fun s => !(taken.contains (parseSlot s)))
      match (if 0 < minNotice then noticeFilter dt (now + 60 * minNotice) available
             else some available) with
      | none => none
      | some av => some (emitDay (isoDate dt) av)

def collectDays (f : Date → Option (Option DayAvail)) : List Date → Option (List DayAvail)
  | [] => some []
  | d :: ds =>
    match f d with
    | none => none
    | some none => collectDays f ds
    | some (some a) => (collectDays f ds).map (fun l => a :: l)

/-- Model of `CalendarService.get_availability` (`service.py` lines 69-130) as a pure
function of the stored settings, rules, overrides and booking
rows, the wall clock `now` (in absolute minutes) and the parsed query range.
Result `none` models the Python call raising on a malformed stored slot. -/
def get_availability (settings : Settings) (rules : List Rule)
    (ovs : List DateOverride) (rows : List BookingRow) (now : Nat)
    (startD endD : Date) : Option (List DayAvail) :=
  let ovsR := overridesInRange ovs (isoDate startD) (isoDate endD)
  let rowsR := bookingsInRange rows (isoDate startD) (isoDate endD)
  collectDays
    (availForDate settings.minNoticeHours settings.hardCutoffDate rules ovsR rowsR now)
    (iterateDates startD endD)

/-! ### Facts about the key-value store -/

theorem lookupB_removeB_ne (st : BookStore) (k k' : BKey) (h : k' ≠ k) :
    lookupB (removeB st k) k' = lookupB st k' := by
  induction st with
  | nil => rfl
  | cons p rest ih =>
    obtain ⟨kk, b⟩ := p
    by_cases hk : kk = k
    · subst hk
      have h2 : kk ≠ k' := fun e => h e.symm
      simp [removeB, lookupB, h2, ih]
    · by_cases hk' : kk = k'
      · subst hk'
        simp [removeB, lookupB, hk]
      · simp [removeB, lookupB, hk, hk', ih]

theorem lookupB_removeB_self (st : BookStore) (k : BKey) :
    lookupB (removeB st k) k = none := by
  induction st with
  | nil => rfl
  | cons p rest ih =>
    obtain ⟨kk, b⟩ := p
    by_cases hk : kk = k
    · simp [removeB, hk, ih]
    · simp [removeB, lookupB, hk, ih]

theorem removeB_removeB (st : BookStore) (k : BKey) :
    removeB (removeB st k) k = removeB st k := by
  induction st with
  | nil => rfl
  | cons p rest ih =>
    obtain ⟨kk, b⟩ := p
    by_cases hk : kk = k
    · simp [removeB, hk, ih]
    · simp [removeB, hk, ih]

theorem lookupB_insertB_self (st : BookStore) (k : BKey) (b : Booking) :
    lookupB (insertB st k b) k = some b := by
  simp [insertB, lookupB]

theorem lookupB_insertB_ne (st : BookStore) (k k' : BKey) (b : Booking) (h : k' ≠ k) :
    lookupB (insertB st k b) k' = lookupB st k' := by
  have hne : k ≠ k' := fun e => h e.symm
  simp [insertB, lookupB, hne, lookupB_removeB_ne st k k' h]

theorem insertB_insertB (st : BookStore) (k : BKey) (b b' : Booking) :
    insertB (insertB st k b) k b' = insertB st k b' := by
  simp [insertB, removeB, removeB_removeB]

/-! ### Claim theorems -/

/-- C1: after `create_booking` succeeds at a date+time, a second
`create_booking` at the identical date+time fails with `ConflictError`,
leaves the store exactly as the first call left it, and the booking the
first call wrote — client, status, details, createdAt — still sits at the
key, unchanged by the rejected attempt. -/
theorem create_booking_rejects_second_and_preserves_original
    (st : BookStore) (date time c1 : String) (d1 : List (String × String))
    (s1 : String) (n1 : Nat) (b : Option Booking) (st1 : BookStore)
    (c2 : String) (d2 : List (String × String)) (s2 : String) (n2 : Nat)
    (h : create_booking st date time c1 d1 s1 n1 = (Except.ok b, st1)) :
    create_booking st1 date time c2 d2 s2 n2 = (Except.error CalErr.conflict, st1) ∧
    b = some { clientMobile := c1, status := s1, appointmentDetails := d1,
               createdAt := n1, updatedAt := n1 } ∧
    lookupB st1 (date, stripColons time) = b := by
  by_cases hl : (stripColons time).length = 4
  · by_cases he : (lookupB st (date, stripColons time)).isSome
    · simp [create_booking, put_booking, hl, he] at h
    · simp [create_booking, put_booking, hl, he] at h
      obtain ⟨hb, hst⟩ := h
      subst hst
      rw [lookupB_insertB_self] at hb
      refine ⟨?_, hb.symm, ?_⟩
      · simp [create_booking, put_booking, hl, lookupB_insertB_self]
      · rw [lookupB_insertB_self]
        exact hb
  · simp [create_booking, hl] at h

/-- Witness for C1: booking `09:30` on an empty store, then again. -/
theorem create_booking_rejects_second_witness :
    create_booking
      (create_booking [] "2024-03-15" "09:30" "m" [] "PENDING" 5).2
      "2024-03-15" "09:30" "n" [] "PENDING" 6
      = (Except.error CalErr.conflict,
         (create_booking [] "2024-03-15" "09:30" "m" [] "PENDING" 5).2) := by
  have h := create_booking_rejects_second_and_preserves_original
    [] "2024-03-15" "09:30" "m" [] "PENDING" 5
    (some { clientMobile := "m", status := "PENDING", appointmentDetails := [],
            createdAt := 5, updatedAt := 5 })
    [(("2024-03-15", "0930"),
      { clientMobile := "m", status := "PENDING", appointmentDetails := [],
        createdAt := 5, updatedAt := 5 })]
    "n" [] "PENDING" 6 (by decide)
  have e : (create_booking [] "2024-03-15" "09:30" "m" [] "PENDING" 5).2
      = [(("2024-03-15", "0930"),
          { clientMobile := "m", status := "PENDING", appointmentDetails := [],
            createdAt := 5, updatedAt := 5 })] := by decide
  rw [e]
  exact h.1

/-- C7 counterexample: `"ab:cd"` strips to `"abcd"`, which is not a
4-digit time, yet `create_booking` does not raise a validation error — it
happily books the slot.  The code checks only the length of the stripped
string, never that the characters are digits. -/
theorem create_booking_accepts_nondigit_time :
    isFourDigitTime (stripColons "ab:cd") = false ∧
    (create_booking [] "2024-03-15" "ab:cd" "m" [] "PENDING" 0).1
      ≠ Except.error CalErr.validation := by decide

/-- C7 (amended): `create_booking` raises a validation error if and only if
the colon-stripped time does not consist of exactly 4 characters; digit
content is never checked. -/
theorem create_booking_validation_iff_length
    (st : BookStore) (date time c : String) (d : List (String × String))
    (s : String) (n : Nat) :
    (create_booking st date time c d s n).1 = Except.error CalErr.validation ↔
      (stripColons time).length ≠ 4 := by
  by_cases hl : (stripColons time).length = 4
  · rcases hp : put_booking st date (stripColons time) c s d none true n with u | st'
    · simp [create_booking, hl, hp]
    · simp [create_booking, hl, hp]
  · simp [create_booking, hl]

/-- Witness for C7 (amended): a 3-character time is rejected. -/
theorem create_booking_validation_witness :
    (create_booking [] "2024-01-01" "123" "m" [] "PENDING" 0).1
      = Except.error CalErr.validation :=
  (create_booking_validation_iff_length [] "2024-01-01" "123" "m" [] "PENDING" 0).mpr
    (by decide)

/-- C9 counterexample: cancelling the same booking twice is NOT a state-wise
no-op — the second call rewrites the item with a fresh `updatedAt`, so when
the two calls carry distinct timestamps the resulting stores differ. -/
theorem cancel_booking_second_call_changes_state :
    (cancel_booking
        (cancel_booking
          [(("2024-03-15", "0930"),
            { clientMobile := "m", status := "PENDING", appointmentDetails := [],
              createdAt := 0, updatedAt := 0 })] "2024-03-15" "0930" 1).2
        "2024-03-15" "0930" 2).2
      ≠ (cancel_booking
          [(("2024-03-15", "0930"),
            { clientMobile := "m", status := "PENDING", appointmentDetails := [],
              createdAt := 0, updatedAt := 0 })] "2024-03-15" "0930" 1).2 := by
  decide

/-- C9 (amended): `cancel_booking` on a key with no booking returns absent
and leaves the store unchanged; a second `cancel_booking` on an existing
booking keeps it CANCELLED and identical except for `updatedAt`, which it
refreshes to the second timestamp — so the second call is a state-wise
no-op exactly when the wall clock has not moved. -/
theorem cancel_booking_absent_and_idempotent_up_to_updatedAt
    (st : BookStore) (d t : String) (n1 n2 : Nat) :
    (lookupB st (d, stripColons t) = none → cancel_booking st d t n1 = (none, st)) ∧
    (∀ b : Booking, lookupB st (d, stripColons t) = some b →
      cancel_booking (cancel_booking st d t n1).2 d t n2 =
        (some { b with status := "CANCELLED", updatedAt := n2 },
         insertB st (d, stripColons t) { b with status := "CANCELLED", updatedAt := n2 }) ∧
      (n1 = n2 → (cancel_booking (cancel_booking st d t n1).2 d t n2).2
          = (cancel_booking st d t n1).2)) := by
  constructor
  · intro h
    simp [cancel_booking, h]
  · intro b hb
    have h1 : cancel_booking st d t n1 =
        (some { b with status := "CANCELLED", updatedAt := n1 },
         insertB st (d, stripColons t) { b with status := "CANCELLED", updatedAt := n1 }) := by
      simp [cancel_booking, hb]
    have h2 : cancel_booking (cancel_booking st d t n1).2 d t n2 =
        (some { b with status := "CANCELLED", updatedAt := n2 },
         insertB st (d, stripColons t) { b with status := "CANCELLED", updatedAt := n2 }) := by
      rw [h1]
      simp [cancel_booking, lookupB_insertB_self, insertB_insertB]
    refine ⟨h2, fun hn => ?_⟩
    subst hn
    rw [h2, h1]

/-- Witness for C9 (amended): an absent key, and a double cancel on a
one-booking store. -/
theorem cancel_booking_amended_witness :
    cancel_booking [] "2024-03-15" "0930" 7 = (none, ([] : BookStore)) ∧
    cancel_booking
        (cancel_booking
          [(("2024-03-15", "0930"),
            { clientMobile := "m", status := "PENDING", appointmentDetails := [],
              createdAt := 0, updatedAt := 0 })] "2024-03-15" "0930" 1).2
        "2024-03-15" "0930" 2 =
      (some { clientMobile := "m", status := "CANCELLED", appointmentDetails := [],
              createdAt := 0, updatedAt := 2 },
       insertB
         [(("2024-03-15", "0930"),
           { clientMobile := "m", status := "PENDING", appointmentDetails := [],
             createdAt := 0, updatedAt := 0 })]
         ("2024-03-15", "0930")
         { clientMobile := "m", status := "CANCELLED", appointmentDetails := [],
           createdAt := 0, updatedAt := 2 }) := by
  refine ⟨(cancel_booking_absent_and_idempotent_up_to_updatedAt [] "2024-03-15" "0930" 7 7).1 rfl, ?_⟩
  exact ((cancel_booking_absent_and_idempotent_up_to_updatedAt
    [(("2024-03-15", "0930"),
      { clientMobile := "m", status := "PENDING", appointmentDetails := [],
        createdAt := 0, updatedAt := 0 })] "2024-03-15" "0930" 1 2).2
    { clientMobile := "m", status := "PENDING", appointmentDetails := [],
      createdAt := 0, updatedAt := 0 } (by decide)).1

/-- C2: when the conditional insert at the new key fails because that key is
occupied, `reschedule_booking` re-inserts the original booking at the old
key — same client, status, details and `createdAt` (only `updatedAt` is
refreshed) — and reports `ConflictError`. -/
theorem reschedule_booking_compensates_on_conflict
    (st : BookStore) (od ot nd nt : String) (now : Nat) (b c : Booking)
    (hb : lookupB st (od, stripColons ot) = some b)
    (hs : b.status ≠ "CANCELLED")
    (hc : lookupB (removeB st (od, stripColons ot)) (nd, stripColons nt) = some c) :
    reschedule_booking st od ot nd nt now =
      (Except.error CalErr.conflict,
       insertB (removeB st (od, stripColons ot)) (od, stripColons ot)
         { clientMobile := b.clientMobile, status := b.status,
           appointmentDetails := b.appointmentDetails,
           createdAt := b.createdAt, updatedAt := now }) ∧
    lookupB (reschedule_booking st od ot nd nt now).2 (od, stripColons ot) =
      some { clientMobile := b.clientMobile, status := b.status,
             appointmentDetails := b.appointmentDetails,
             createdAt := b.createdAt, updatedAt := now } := by
  have h1 : reschedule_booking st od ot nd nt now =
      (Except.error CalErr.conflict,
       insertB (removeB st (od, stripColons ot)) (od, stripColons ot)
         { clientMobile := b.clientMobile, status := b.status,
           appointmentDetails := b.appointmentDetails,
           createdAt := b.createdAt, updatedAt := now }) := by
    simp [reschedule_booking, put_booking, hb, hs, hc]
  refine ⟨h1, ?_⟩
  rw [h1]
  exact lookupB_insertB_self _ _ _

/-- Witness for C2: rescheduling onto an occupied slot restores the
original booking at its old key. -/
theorem reschedule_booking_compensates_witness :
    reschedule_booking
      [(("2024-03-15", "0930"),
        { clientMobile := "m", status := "PENDING", appointmentDetails := [],
          createdAt := 3, updatedAt := 3 }),
       (("2024-03-16", "1000"),
        { clientMobile := "x", status := "CONFIRMED", appointmentDetails := [],
          createdAt := 4, updatedAt := 4 })]
      "2024-03-15" "09:30" "2024-03-16" "10:00" 9 =
    (Except.error CalErr.conflict,
     insertB
       (removeB
         [(("2024-03-15", "0930"),
           { clientMobile := "m", status := "PENDING", appointmentDetails := [],
             createdAt := 3, updatedAt := 3 }),
          (("2024-03-16", "1000"),
           { clientMobile := "x", status := "CONFIRMED", appointmentDetails := [],
             createdAt := 4, updatedAt := 4 })]
         ("2024-03-15", "0930"))
       ("2024-03-15", "0930")
       { clientMobile := "m", status := "PENDING", appointmentDetails := [],
         createdAt := 3, updatedAt := 9 }) :=
  (reschedule_booking_compensates_on_conflict _ "2024-03-15" "09:30" "2024-03-16" "10:00" 9
    { clientMobile := "m", status := "PENDING", appointmentDetails := [],
      createdAt := 3, updatedAt := 3 }
    { clientMobile := "x", status := "CONFIRMED", appointmentDetails := [],
      createdAt := 4, updatedAt := 4 }
    (by decide) (by decide) (by decide)).1

/-- C10: `update_settings` leaves `hardCutoffDate` unchanged whenever its
argument is absent, and likewise `horizonDays` and `minNoticeHours`; and
once `hardCutoffDate` is set, no argument combination produces settings
with it cleared. -/
theorem update_settings_none_preserves_fields
    (ex : Settings) (hd mnh : Option Nat) (hcd : Option String) (now : Nat) :
    ((update_settings (some ex) hd mnh none now).map Settings.hardCutoffDate
        = some ex.hardCutoffDate) ∧
    ((update_settings (some ex) none mnh hcd now).map Settings.horizonDays
        = some ex.horizonDays) ∧
    ((update_settings (some ex) hd none hcd now).map Settings.minNoticeHours
        = some ex.minNoticeHours) ∧
    (ex.hardCutoffDate.isSome →
      ∀ s : Settings, update_settings (some ex) hd mnh hcd now = some s →
        s.hardCutoffDate.isSome) := by
  refine ⟨by simp [update_settings], by simp [update_settings],
    by simp [update_settings], ?_⟩
  intro h s hs
  cases hcd with
  | none =>
    simp [update_settings] at hs
    rw [← hs]
    simpa using h
  | some v =>
    simp [update_settings] at hs
    rw [← hs]
    simp

/-- Witness for C10: an update that sets only `horizonDays` keeps the
existing hard cutoff. -/
theorem update_settings_none_preserves_witness :
    ((update_settings
        (some { horizonDays := 30, minNoticeHours := 2,
                hardCutoffDate := some "2024-12-31", createdAt := 0, updatedAt := 0 })
        (some 10) none none 9).map Settings.hardCutoffDate
      = some (some "2024-12-31")) ∧
    Option.isSome (Settings.hardCutoffDate
      { horizonDays := 10, minNoticeHours := 2,
        hardCutoffDate := some "2024-12-31", createdAt := 0, updatedAt := 9 }) := by
  have h := update_settings_none_preserves_fields
    { horizonDays := 30, minNoticeHours := 2,
      hardCutoffDate := some "2024-12-31", createdAt := 0, updatedAt := 0 }
    (some 10) none none 9
  exact ⟨h.1, h.2.2.2 (by decide) _ (by decide)⟩

/-- C8: for an active booking at `(d1,t1)` with `(d2,t2)` free, rescheduling
to `(d2,t2)` leaves `(d1,t1)` free, and rescheduling back succeeds and
restores a booking at `(d1,t1)` with the original `createdAt`, client,
details and status (only `updatedAt` moves). -/
theorem reschedule_booking_roundtrip
    (st : BookStore) (d1 t1 d2 t2 : String) (n1 n2 : Nat) (b : Booking)
    (h1 : lookupB st (d1, stripColons t1) = some b)
    (h2 : b.status ≠ "CANCELLED")
    (h3 : lookupB st (d2, stripColons t2) = none) :
    lookupB (reschedule_booking st d1 t1 d2 t2 n1).2 (d1, stripColons t1) = none ∧
    (reschedule_booking
        (reschedule_booking st d1 t1 d2 t2 n1).2 d2 t2 d1 t1 n2).1 =
      Except.ok (some { clientMobile := b.clientMobile, status := b.status,
                        appointmentDetails := b.appointmentDetails,
                        createdAt := b.createdAt, updatedAt := n2 }) ∧
    lookupB (reschedule_booking
        (reschedule_booking st d1 t1 d2 t2 n1).2 d2 t2 d1 t1 n2).2
      (d1, stripColons t1) =
      some { clientMobile := b.clientMobile, status := b.status,
             appointmentDetails := b.appointmentDetails,
             createdAt := b.createdAt, updatedAt := n2 } := by
  have hk12 : (d1, stripColons t1) ≠ (d2, stripColons t2) := by
    intro e
    rw [e, h3] at h1
    exact Option.noConfusion h1
  have hne21 : (d2, stripColons t2) ≠ (d1, stripColons t1) := fun e => hk12 e.symm
  have hl2 : lookupB (removeB st (d1, stripColons t1)) (d2, stripColons t2) = none := by
    rw [lookupB_removeB_ne st _ _ hne21]
    exact h3
  have e1 : reschedule_booking st d1 t1 d2 t2 n1 =
      (Except.ok (some { clientMobile := b.clientMobile, status := b.status,
                         appointmentDetails := b.appointmentDetails,
                         createdAt := b.createdAt, updatedAt := n1 }),
       insertB (removeB st (d1, stripColons t1)) (d2, stripColons t2)
         { clientMobile := b.clientMobile, status := b.status,
           appointmentDetails := b.appointmentDetails,
           createdAt := b.createdAt, updatedAt := n1 }) := by
    simp [reschedule_booking, h1, h2, put_booking, hl2, lookupB_insertB_self]
  have hfree : lookupB (reschedule_booking st d1 t1 d2 t2 n1).2 (d1, stripColons t1) = none := by
    rw [e1]
    rw [lookupB_insertB_ne _ _ _ _ hk12]
    exact lookupB_removeB_self st _
  have hl1 : lookupB
      (removeB (insertB (removeB st (d1, stripColons t1)) (d2, stripColons t2)
        { clientMobile := b.clientMobile, status := b.status,
          appointmentDetails := b.appointmentDetails,
          createdAt := b.createdAt, updatedAt := n1 }) (d2, stripColons t2))
      (d1, stripColons t1) = none := by
    rw [lookupB_removeB_ne _ _ _ hk12]
    rw [lookupB_insertB_ne _ _ _ _ hk12]
    exact lookupB_removeB_self st _
  have e2 : reschedule_booking (reschedule_booking st d1 t1 d2 t2 n1).2 d2 t2 d1 t1 n2 =
      (Except.ok (some { clientMobile := b.clientMobile, status := b.status,
                         appointmentDetails := b.appointmentDetails,
                         createdAt := b.createdAt, updatedAt := n2 }),
       insertB
         (removeB (insertB (removeB st (d1, stripColons t1)) (d2, stripColons t2)
           { clientMobile := b.clientMobile, status := b.status,
             appointmentDetails := b.appointmentDetails,
             createdAt := b.createdAt, updatedAt := n1 }) (d2, stripColons t2))
         (d1, stripColons t1)
         { clientMobile := b.clientMobile, status := b.status,
           appointmentDetails := b.appointmentDetails,
           createdAt := b.createdAt, updatedAt := n2 }) := by
    rw [e1]
    simp [reschedule_booking, lookupB_insertB_self, h2, put_booking, hl1]
  refine ⟨hfree, ?_, ?_⟩
  · rw [e2]
  · rw [e2]
    exact lookupB_insertB_self _ _ _

/-- Witness for C8: book `09:30`, reschedule to the next day and back;
`createdAt = 3` survives, `updatedAt` ends at the second timestamp. -/
theorem reschedule_booking_roundtrip_witness :
    lookupB (reschedule_booking
      [(("2024-03-15", "0930"),
        { clientMobile := "m", status := "CONFIRMED",
          appointmentDetails := [("note", "x")], createdAt := 3, updatedAt := 3 })]
      "2024-03-15" "09:30" "2024-03-16" "10:00" 10).2 ("2024-03-15", "0930") = none ∧
    (reschedule_booking
      (reschedule_booking
        [(("2024-03-15", "0930"),
          { clientMobile := "m", status := "CONFIRMED",
            appointmentDetails := [("note", "x")], createdAt := 3, updatedAt := 3 })]
        "2024-03-15" "09:30" "2024-03-16" "10:00" 10).2
      "2024-03-16" "10:00" "2024-03-15" "09:30" 20).1 =
      Except.ok (some { clientMobile := "m", status := "CONFIRMED",
                        appointmentDetails := [("note", "x")],
                        createdAt := 3, updatedAt := 20 }) ∧
    lookupB (reschedule_booking
      (reschedule_booking
        [(("2024-03-15", "0930"),
          { clientMobile := "m", status := "CONFIRMED",
            appointmentDetails := [("note", "x")], createdAt := 3, updatedAt := 3 })]
        "2024-03-15" "09:30" "2024-03-16" "10:00" 10).2
      "2024-03-16" "10:00" "2024-03-15" "09:30" 20).2 ("2024-03-15", "0930") =
      some { clientMobile := "m", status := "CONFIRMED",
             appointmentDetails := [("note", "x")],
             createdAt := 3, updatedAt := 20 } :=
  reschedule_booking_roundtrip
    [(("2024-03-15", "0930"),
      { clientMobile := "m", status := "CONFIRMED",
        appointmentDetails := [("note", "x")], createdAt := 3, updatedAt := 3 })]
    "2024-03-15" "09:30" "2024-03-16" "10:00" 10 20
    { clientMobile := "m", status := "CONFIRMED",
      appointmentDetails := [("note", "x")], createdAt := 3, updatedAt := 3 }
    (by decide) (by decide) (by decide)

/-! ### Facts about the availability engine -/

theorem mem_insertSorted (x s : String) (l : List String)
    (h : s ∈ insertSorted x l) : s = x ∨ s ∈ l := by
  induction l with
  | nil => simpa [insertSorted] using h
  | cons y ys ih =>
    by_cases hc : strLe x y = true
    · simpa [insertSorted, hc] using h
    · simp only [insertSorted, hc] at h
      rcases List.mem_cons.mp h with h1 | h1
      · exact Or.inr (by simp [h1])
      · rcases ih h1 with h2 | h2
        · exact Or.inl h2
        · exact Or.inr (List.mem_cons_of_mem _ h2)

theorem mem_sortStrings (s : String) (l : List String)
    (h : s ∈ sortStrings l) : s ∈ l := by
  induction l with
  | nil => simp [sortStrings] at h
  | cons y ys ih =>
    rcases mem_insertSorted y s (sortStrings ys) (by simpa [sortStrings] using h) with h1 | h1
    · simp [h1]
    · exact List.mem_cons_of_mem _ (ih h1)

theorem noticeFilter_subset (dt : Date) (c : Nat) (l out : List String)
    (h : noticeFilter dt c l = some out) : ∀ s ∈ out, s ∈ l := by
  induction l generalizing out with
  | nil =>
    simp [noticeFilter] at h
    subst h
    intro s hs
    exact absurd hs (by simp)
  | cons x xs ih =>
    simp only [noticeFilter] at h
    cases hi : slotInstant dt x with
    | none => rw [hi] at h; exact absurd h (by simp)
    | some i =>
      rw [hi] at h
      cases hr : noticeFilter dt c xs with
      | none => rw [hr] at h; exact absurd h (by simp)
      | some tail =>
        rw [hr] at h
        simp only [Option.some.injEq] at h
        subst h
        intro s hs
        by_cases hc : c ≤ i
        · simp only [if_pos hc] at hs
          rcases List.mem_cons.mp hs with h1 | h1
          · simp [h1]
          · exact List.mem_cons_of_mem _ (ih tail hr s h1)
        · simp only [if_neg hc] at hs
          exact List.mem_cons_of_mem _ (ih tail hr s hs)

theorem collectDays_mem (f : Date → Option (Option DayAvail)) (ds : List Date)
    (res : List DayAvail) (h : collectDays f ds = some res) (a : DayAvail)
    (ha : a ∈ res) : ∃ dt, dt ∈ ds ∧ f dt = some (some a) := by
  induction ds generalizing res with
  | nil =>
    simp [collectDays] at h
    subst h
    exact absurd ha (by simp)
  | cons d ds ih =>
    simp only [collectDays] at h
    cases hf : f d with
    | none => rw [hf] at h; exact absurd h (by simp)
    | some o =>
      rw [hf] at h
      cases o with
      | none =>
        obtain ⟨dt, hdt, hfd⟩ := ih res h ha
        exact ⟨dt, List.mem_cons_of_mem _ hdt, hfd⟩
      | some aa =>
        cases hr : collectDays f ds with
        | none => rw [hr] at h; exact absurd h (by simp)
        | some rest =>
          rw [hr] at h
          simp only [Option.map_some', Option.some.injEq] at h
          subst h
          rcases List.mem_cons.mp ha with h1 | h1
          · exact ⟨d, List.mem_cons_self _ _, by rw [hf, h1]⟩
          · obtain ⟨dt, hdt, hfd⟩ := ih rest hr h1
            exact ⟨dt, List.mem_cons_of_mem _ hdt, hfd⟩

theorem availForDate_blocked (mn : Nat) (hc : Option String) (rules : List Rule)
    (ovs : List DateOverride) (rows : List BookingRow) (now : Nat) (dt : Date)
    (o : DateOverride)
    (ho : lookupLast DateOverride.date ovs (isoDate dt) = some o)
    (hb : o.type = "BLOCKED") :
    availForDate mn hc rules ovs rows now dt = some none := by
  have hbase : baseSlotsFor rules ovs dt = none := by
    simp [baseSlotsFor, ho, hb]
  simp [availForDate, hbase]

theorem availForDate_slots_sub_base (mn : Nat) (hc : Option String)
    (rules : List Rule) (ovs : List DateOverride) (rows : List BookingRow)
    (now : Nat) (dt : Date) (base : List String) (a : DayAvail)
    (hbase : baseSlotsFor rules ovs dt = some base)
    (h : availForDate mn hc rules ovs rows now dt = some (some a)) :
    a.date = isoDate dt ∧ ∀ s ∈ a.slots, s ∈ base ∧
      (bookedTimes rows (isoDate dt)).contains (parseSlot s) = false := by
  simp only [availForDate, hbase] at h
  split at h
  · exact absurd h (by simp)
  · split at h
    · exact absurd h (by simp)
    · rename_i av heq
      simp only [Option.some.injEq] at h
      have hav : ∀ s ∈ av,
          s ∈ base.filter (fun s => !((bookedTimes rows (isoDate dt)).contains (parseSlot s))) := by
        split at heq
        · exact noticeFilter_subset dt _ _ av heq
        · intro s hs
          simp only [Option.some.injEq] at heq
          rw [heq]
          exact hs
      have hemit : a = { date := isoDate dt, slots := sortStrings av } := by
        by_cases he : av.isEmpty
        · rw [emitDay, if_pos he] at h
          exact absurd h (by simp)
        · rw [emitDay, if_neg he] at h
          simp only [Option.some.injEq] at h
          exact h.symm
      subst hemit
      refine ⟨rfl, fun s hs => ?_⟩
      have h1 := hav s (mem_sortStrings s av hs)
      have h2 := List.mem_filter.mp h1
      exact ⟨h2.1, by simpa using h2.2⟩

theorem availForDate_date (mn : Nat) (hc : Option String) (rules : List Rule)
    (ovs : List DateOverride) (rows : List BookingRow) (now : Nat) (dt : Date)
    (a : DayAvail) (h : availForDate mn hc rules ovs rows now dt = some (some a)) :
    a.date = isoDate dt := by
  cases hbase : baseSlotsFor rules ovs dt with
  | none =>
    simp only [availForDate, hbase] at h
    split at h <;> simp_all
  | some base => exact (availForDate_slots_sub_base mn hc rules ovs rows now dt base a hbase h).1

/-- C5: a date carrying a BLOCKED override (as the queried range sees it)
never contributes an entry to the availability result, whatever the rules,
bookings, settings and clock are. -/
theorem blocked_override_yields_no_entry
    (settings : Settings) (rules : List Rule) (ovs : List DateOverride)
    (rows : List BookingRow) (now : Nat) (startD endD : Date) (d : String)
    (o : DateOverride) (res : List DayAvail)
    (ho : lookupLast DateOverride.date
      (overridesInRange ovs (isoDate startD) (isoDate endD)) d = some o)
    (hb : o.type = "BLOCKED")
    (h : get_availability settings rules ovs rows now startD endD = some res) :
    ∀ a ∈ res, a.date ≠ d := by
  intro a ha had
  simp only [get_availability] at h
  obtain ⟨dt, hdt, hfd⟩ := collectDays_mem _ _ _ h a ha
  have hdate := availForDate_date _ _ _ _ _ _ _ _ hfd
  have hiso : isoDate dt = d := by rw [← hdate, had]
  have hblk := availForDate_blocked settings.minNoticeHours settings.hardCutoffDate
    rules (overridesInRange ovs (isoDate startD) (isoDate endD))
    (bookingsInRange rows (isoDate startD) (isoDate endD)) now dt o
    (by rw [hiso]; exact ho) hb
  rw [hfd] at hblk
  exact Option.noConfusion (Option.some.inj hblk)

/-- Witness for C5: a BLOCKED 2024-03-18 never shows up; the rule-driven
2024-03-21 entry that does show up has a different date. -/
theorem blocked_override_witness :
    DayAvail.date { date := "2024-03-21", slots := ["09:00"] } ≠ "2024-03-18" :=
  blocked_override_yields_no_entry
    { horizonDays := 30, minNoticeHours := 0, hardCutoffDate := none,
      createdAt := 0, updatedAt := 0 }
    [{ dayOfMonth := 18, availableSlots := ["09:00"] },
     { dayOfMonth := 21, availableSlots := ["09:00"] }]
    [{ date := "2024-03-18", type := "BLOCKED", overrideSlots := [] }]
    [] 0 ⟨2024, 3, 15⟩ ⟨2024, 3, 25⟩ "2024-03-18"
    { date := "2024-03-18", type := "BLOCKED", overrideSlots := [] }
    [{ date := "2024-03-21", slots := ["09:00"] }]
    (by decide) (by decide) (by decide)
    { date := "2024-03-21", slots := ["09:00"] } (by decide)

/-- C4: on a date carrying a MODIFIED override, every returned slot is the
normalized form of one of the override slots — rule-derived slots never
leak in — and its normalized form is not among the times of active
(PENDING/CONFIRMED) bookings of that date. -/
theorem modified_override_slots_from_override
    (settings : Settings) (rules : List Rule) (ovs : List DateOverride)
    (rows : List BookingRow) (now : Nat) (startD endD : Date) (d : String)
    (o : DateOverride) (res : List DayAvail) (a : DayAvail) (s : String)
    (ho : lookupLast DateOverride.date
      (overridesInRange ovs (isoDate startD) (isoDate endD)) d = some o)
    (hm : o.type = "MODIFIED")
    (h : get_availability settings rules ovs rows now startD endD = some res)
    (ha : a ∈ res) (had : a.date = d) (hs : s ∈ a.slots) :
    (∃ raw ∈ o.overrideSlots, s = parseSlot raw) ∧
    (bookedTimes (bookingsInRange rows (isoDate startD) (isoDate endD)) d).contains
      (parseSlot s) = false := by
  simp only [get_availability] at h
  obtain ⟨dt, hdt, hfd⟩ := collectDays_mem _ _ _ h a ha
  have hdate := availForDate_date _ _ _ _ _ _ _ _ hfd
  have hiso : isoDate dt = d := by rw [← hdate, had]
  have hnb : o.type ≠ "BLOCKED" := by rw [hm]; decide
  have hbase : baseSlotsFor rules
      (overridesInRange ovs (isoDate startD) (isoDate endD)) dt =
      some (o.overrideSlots.map parseSlot) := by
    rw [baseSlotsFor, hiso, ho]
    simp [hnb]
  obtain ⟨_, hsub⟩ := availForDate_slots_sub_base _ _ _ _ _ _ _ _ _ hbase hfd
  obtain ⟨hsb, hcont⟩ := hsub s hs
  rw [hiso] at hcont
  obtain ⟨raw, hraw, hpe⟩ := List.mem_map.mp hsb
  exact ⟨⟨raw, hraw, hpe.symm⟩, hcont⟩

/-- Witness for C4: a MODIFIED override `["1130","12:00"]` with an active
`11:30` booking yields exactly `12:00`, which normalizes from `"12:00"` and
is not booked. -/
theorem modified_override_witness :
    (∃ raw ∈ ["1130", "12:00"], "12:00" = parseSlot raw) ∧
    (bookedTimes (bookingsInRange
        [{ date := "2024-03-18", timeHHMM := "1130", status := "CONFIRMED" }]
        (isoDate ⟨2024, 3, 15⟩) (isoDate ⟨2024, 3, 19⟩))
      "2024-03-18").contains (parseSlot "12:00") = false :=
  modified_override_slots_from_override
    { horizonDays := 30, minNoticeHours := 0, hardCutoffDate := none,
      createdAt := 0, updatedAt := 0 }
    [{ dayOfMonth := 18, availableSlots := ["09:00"] }]
    [{ date := "2024-03-18", type := "MODIFIED", overrideSlots := ["1130", "12:00"] }]
    [{ date := "2024-03-18", timeHHMM := "1130", status := "CONFIRMED" }]
    0 ⟨2024, 3, 15⟩ ⟨2024, 3, 19⟩ "2024-03-18"
    { date := "2024-03-18", type := "MODIFIED", overrideSlots := ["1130", "12:00"] }
    [{ date := "2024-03-18", slots := ["12:00"] }]
    { date := "2024-03-18", slots := ["12:00"] } "12:00"
    (by decide) (by decide) (by decide) (by decide) (by decide) (by decide)

/-- C3 counterexample: with `minNoticeHours = 2` and the clock at
2024-03-15 07:00, the slot `09:00` — whose instant is exactly now + 2h —
IS returned (the claim says it must be excluded).  The filter keeps every
slot with instant `>= now + minNotice`, so the lower edge is inclusive. -/
theorem min_notice_exact_boundary_slot_included :
    slotInstant ⟨2024, 3, 15⟩ "09:00" =
      some (dayNumber ⟨2024, 3, 15⟩ * 1440 + 420 + 120) ∧
    get_availability
      { horizonDays := 30, minNoticeHours := 2, hardCutoffDate := none,
        createdAt := 0, updatedAt := 0 }
      [{ dayOfMonth := 15, availableSlots := ["08:59", "09:00", "09:01"] }] [] []
      (dayNumber ⟨2024, 3, 15⟩ * 1440 + 420) ⟨2024, 3, 15⟩ ⟨2024, 3, 15⟩ =
      some [{ date := "2024-03-15", slots := ["09:00", "09:01"] }] := by
  decide

/-- C3 (amended): the notice boundary is inclusive at the lower edge: with
`minNoticeHours = 2` and the clock at 2024-03-15 07:00, the slot at exactly
now + 2h (`09:00`) and the slot at now + 2h + 1min (`09:01`) are returned,
while the slot at now + 2h - 1min (`08:59`) is removed. -/
theorem min_notice_boundary_inclusive :
    slotInstant ⟨2024, 3, 15⟩ "08:59" =
      some (dayNumber ⟨2024, 3, 15⟩ * 1440 + 420 + 119) ∧
    slotInstant ⟨2024, 3, 15⟩ "09:00" =
      some (dayNumber ⟨2024, 3, 15⟩ * 1440 + 420 + 120) ∧
    slotInstant ⟨2024, 3, 15⟩ "09:01" =
      some (dayNumber ⟨2024, 3, 15⟩ * 1440 + 420 + 121) ∧
    get_availability
      { horizonDays := 30, minNoticeHours := 2, hardCutoffDate := none,
        createdAt := 0, updatedAt := 0 }
      [{ dayOfMonth := 15, availableSlots := ["08:59", "09:00", "09:01"] }] [] []
      (dayNumber ⟨2024, 3, 15⟩ * 1440 + 420) ⟨2024, 3, 15⟩ ⟨2024, 3, 15⟩ =
      some [{ date := "2024-03-15", slots := ["09:00", "09:01"] }] := by
  decide

/-- C6: `horizonDays` is NOT enforced.  With `horizonDays = 30`,
2024-12-01 lies 335 days after the clock date 2024-01-01, yet
`get_availability` still offers its slot (the `horizon` local read at
`service.py` line 90 is never used), and `create_booking` — which never
reads settings at all — succeeds at an arbitrarily distant date. -/
theorem horizon_days_not_enforced :
    dayNumber ⟨2024, 12, 1⟩ - dayNumber ⟨2024, 1, 1⟩ = 335 ∧
    get_availability
      { horizonDays := 30, minNoticeHours := 0, hardCutoffDate := none,
        createdAt := 0, updatedAt := 0 }
      [{ dayOfMonth := 1, availableSlots := ["09:00"] }] [] []
      (dayNumber ⟨2024, 1, 1⟩ * 1440) ⟨2024, 12, 1⟩ ⟨2024, 12, 1⟩ =
      some [{ date := "2024-12-01", slots := ["09:00"] }] ∧
    (create_booking [] "2024-12-01" "09:00" "m" [] "PENDING" 0).1 =
      Except.ok (some { clientMobile := "m", status := "PENDING",
                        appointmentDetails := [], createdAt := 0, updatedAt := 0 }) := by
  decide

end Cal
